import Mathlib

/-!
Shallow embedding of the DIV timeline-puzzle rules engine
(`timeline_system.py`, `game_logic.py`, `game_controller.py`).

Python integers are modelled as `Int` (no overflow in CPython), grid
positions as `Int × Int`, the terrain dictionary as an association
list looked up with `List.lookup` (first match, like a dict that never
holds duplicate keys), and Python lists as `List`.

The source sets a *dynamic* attribute `carrier` on `Entity` objects in
`game_logic.py` while the `Entity` dataclass itself only declares
`holder`.  Reading a never-assigned attribute raises `AttributeError`
in Python; we model the attribute as `carrier : Option (Option Nat)`
where `none` means "attribute absent" (a read raises) and
`some v` means the attribute is present with value `v`
(`v = none` models Python `None`).  Functions that can raise return
the state reached at the raise point together with a raised flag,
because the Python code mutates state in place before raising.
-/

namespace DIV

abbrev Pos := Int × Int

/-- Componentwise addition of a position and a direction,
as in `(px + dx, py + dy)` in the source. -/
def padd (a b : Pos) : Pos := (a.1 + b.1, a.2 + b.2)

inductive EntityType
  | PLAYER
  | BOX
  deriving DecidableEq, Repr

inductive TerrainType
  | FLOOR
  | WALL
  | SWITCH
  | WEIGHT1
  | WEIGHT2
  | NO_CARRY
  | BRANCH1
  | BRANCH2
  | BRANCH3
  | BRANCH4
  | GOAL
  | HOLE
  deriving DecidableEq, Repr

inductive PhysicsResult
  | OK
  | FALL
  deriving DecidableEq, Repr

/-- Runtime entity (`Entity` dataclass in `timeline_system.py`), with the
extra `carrier` slot modelling the dynamic attribute set by
`game_logic.py` (`none` = attribute absent on the Python object). -/
structure Entity where
  uid : Nat
  type : EntityType
  pos : Pos
  collision : Int := 1
  weight : Int := 1
  z : Int := 0
  holder : Option Nat := none
  direction : Pos := (0, 1)
  carrier : Option (Option Nat) := none
  deriving DecidableEq, Repr

/-- Placeholder entity used for `headD`/`getD` defaults; every theorem
below carries hypotheses keeping these accesses inside the list, where
the Python code would otherwise raise `IndexError`. -/
def defaultEntity : Entity :=
  { uid := 0, type := .PLAYER, pos := (0, 0) }

abbrev Terrain := List (Pos × TerrainType)

/-- Dictionary read `terrain.get(pos)` (first binding wins; the Python
dict never holds duplicate keys). -/
def tget (t : Terrain) (p : Pos) : Option TerrainType :=
  t.lookup p

/-- Dictionary write `terrain[pos] = v`: overwrite the existing binding
in place, else append a fresh one (Python dict semantics). -/
def tset (t : Terrain) (p : Pos) (v : TerrainType) : Terrain :=
  if (t.lookup p).isSome then
    t.map (fun kv => if kv.1 == p then (kv.1, v) else kv)
  else
    t ++ [(p, v)]

/-- First-occurrence deduplication, matching the observable content of a
Python `set(...)` built from a list (only membership and cardinality of
the set are ever used by the source), and the key order of a dict built
by repeated `setdefault`. -/
def uniq [BEq α] : List α → List α
  | [] => []
  | a :: rest => a :: (uniq rest).filter (fun x => !(x == a))

/-- Branch state (`BranchState` in `timeline_system.py`). -/
structure BranchState where
  entities : List Entity := []
  terrain : Terrain := []
  grid_size : Int := 0
  deriving DecidableEq, Repr

/-- Copy of one entity as done by `BranchState.copy` and
`Timeline._copy_entity`: only the declared dataclass fields are copied,
so the dynamic `carrier` attribute is dropped. -/
def Entity.copyE (e : Entity) : Entity :=
  { uid := e.uid, type := e.type, pos := e.pos, collision := e.collision,
    weight := e.weight, z := e.z, holder := e.holder,
    direction := e.direction }

/-- Deep copy (`BranchState.copy`). -/
def BranchState.copy (s : BranchState) : BranchState :=
  { entities := s.entities.map Entity.copyE,
    terrain := s.terrain, grid_size := s.grid_size }

/-- Property `BranchState.player`, i.e. `entities[0]`. -/
def BranchState.player (s : BranchState) : Entity :=
  s.entities.headD defaultEntity

/-- Method `get_entities_by_uid`. -/
def BranchState.get_entities_by_uid (s : BranchState) (uid : Nat) : List Entity :=
  s.entities.filter (fun e => e.uid == uid)

/-- Method `is_shadow`: more than one distinct position among the
instances of `uid`. -/
def BranchState.is_shadow (s : BranchState) (uid : Nat) : Bool :=
  decide (1 < (uniq ((s.get_entities_by_uid uid).map (·.pos))).length)

/-- Method `get_held_items`: uids of entities with `holder == 0`. -/
def BranchState.get_held_items (s : BranchState) : List Nat :=
  (s.entities.filter (fun e => e.holder == some 0)).map (·.uid)

/-- Method `is_hole_filled`: some entity at `pos` with `z == -1`. -/
def BranchState.is_hole_filled (s : BranchState) (pos : Pos) : Bool :=
  s.entities.any (fun e => e.pos == pos && e.z == (-1 : Int))

/-- Method `find_box_at`: first grounded box at `pos`
(`Physics.grounded` is `z == 0`). -/
def BranchState.find_box_at (s : BranchState) (pos : Pos) : Option Entity :=
  s.entities.find? (fun e =>
    e.pos == pos && e.type == EntityType.BOX && e.z == (0 : Int))

/-- Method `has_box_at`. -/
def BranchState.has_box_at (s : BranchState) (pos : Pos) : Bool :=
  s.entities.any (fun e =>
    e.type == EntityType.BOX && e.pos == pos && e.z == (0 : Int))

/-- Method `sum_ground_collision_at`: collision of entities with
`z >= 0` at `pos`. -/
def BranchState.sum_ground_collision_at (s : BranchState) (pos : Pos) : Int :=
  ((s.entities.filter (fun e => e.pos == pos && decide ((0 : Int) ≤ e.z))).map
    (·.collision)).sum

/-- Method `sum_weight_at`: weight of all entities at `pos`. -/
def BranchState.sum_weight_at (s : BranchState) (pos : Pos) : Int :=
  ((s.entities.filter (fun e => e.pos == pos)).map (·.weight)).sum

namespace Physics

/-- Function `Physics.in_bound`. -/
def in_bound (p : Pos) (s : BranchState) : Bool :=
  decide (0 ≤ p.1) && decide (p.1 < s.grid_size) &&
  decide (0 ≤ p.2) && decide (p.2 < s.grid_size)

/-- Function `Physics.collision_at`: terrain base plus entity sum.  On
non-hole, non-wall, in-bound cells the Python sum ranges over all
entities at the cell with no layer filter. -/
def collision_at (p : Pos) (s : BranchState) : Int :=
  if tget s.terrain p == some TerrainType.HOLE then
    (if s.is_hole_filled p then 0 else -1) + s.sum_ground_collision_at p
  else if tget s.terrain p == some TerrainType.WALL then
    255
  else if !(in_bound p s) then
    255
  else
    ((s.entities.filter (fun e => e.pos == p)).map (·.collision)).sum

/-- Function `Physics.weight_at`. -/
def weight_at (p : Pos) (s : BranchState) : Int :=
  s.sum_weight_at p

/-- Function `Physics.check_fall`. -/
def check_fall (s : BranchState) : Bool :=
  decide (collision_at s.player.pos s < s.player.collision)

/-- Function `Physics.effective_capacity` (`at_pos = none` means the
player's current position; `terrain.get(pos, FLOOR)` defaults to
floor). -/
def effective_capacity (s : BranchState) (at_pos : Option Pos := none) : Int :=
  let pos := at_pos.getD s.player.pos
  let terr := (tget s.terrain pos).getD TerrainType.FLOOR
  if terr == TerrainType.NO_CARRY then 0 else 1

end Physics

/-- Method `all_switches_activated`. -/
def BranchState.all_switches_activated (s : BranchState) : Bool :=
  s.terrain.all (fun kv =>
    !(kv.2 == TerrainType.SWITCH) || decide (0 < Physics.weight_at kv.1 s))

namespace Physics

/-- The body of `Physics.trigger_fill` applied to the entity at index
`i`: if the terrain at `p` is an unfilled hole, bury that entity
(`z := -1`), else leave the state unchanged. -/
def trigger_fill_at (s : BranchState) (i : Nat) (p : Pos) : BranchState :=
  if tget s.terrain p == some TerrainType.HOLE && !(s.is_hole_filled p) then
    { s with entities :=
        s.entities.set i { (s.entities.getD i defaultEntity) with z := -1 } }
  else s

/-- The body of the hole-settling `for e in state.entities` loop inside
`Physics.step`, applied to index `i` of the current list:
`is_hole_filled` is re-read against the current, partially updated list
exactly as the in-place mutation does. -/
def settle_step (t : Terrain) (acc : List Entity × Bool) (i : Nat) :
    List Entity × Bool :=
  let e := acc.1.getD i defaultEntity
  if e.type == EntityType.BOX && e.z == (0 : Int) &&
     tget t e.pos == some TerrainType.HOLE &&
     !(acc.1.any (fun e2 => e2.pos == e.pos && e2.z == (-1 : Int))) then
    (acc.1.set i { e with z := -1 }, true)
  else acc

/-- One in-order scan of the hole-settling loop inside `Physics.step`. -/
def settle_scan (t : Terrain) (l : List Entity) : List Entity × Bool :=
  (List.range l.length).foldl (settle_step t) (l, false)

/-- The `while True` settling loop of `Physics.step`, run with enough
fuel: each scan that reports a change buries at least one grounded box
and buried boxes never resurface, so `entities.length + 1` scans always
reach the fixpoint the Python loop stops at. -/
def settle_loop (t : Terrain) : Nat → List Entity → List Entity
  | 0, l => l
  | fuel + 1, l =>
    let r := settle_scan t l
    if r.2 then settle_loop t fuel r.1 else r.1

/-- Function `Physics.step`: settle holes until stable, then report
`FALL` when the ground cannot support the player. -/
def step (s : BranchState) : BranchState × PhysicsResult :=
  let ents := settle_loop s.terrain (s.entities.length + 1) s.entities
  let s' := { s with entities := ents }
  (s', if check_fall s' then PhysicsResult.FALL else PhysicsResult.OK)

end Physics

namespace Timeline

/-- Function `Timeline.diverge`: a deep copy. -/
def diverge (branch : BranchState) : BranchState :=
  branch.copy

/-- Function `Timeline._entity_priority` as a strict comparison: Python
compares the tuples `(holder is not None, z)` lexicographically and
`max` keeps the first of equal-priority elements. -/
def priority_lt (a b : Entity) : Bool :=
  (!a.holder.isSome && b.holder.isSome) ||
  (a.holder.isSome == b.holder.isSome && decide (a.z < b.z))

/-- Python `max(instances, key=...)` over a nonempty group: fold keeping
the current element unless a strictly higher-priority one appears. -/
def best_of : List Entity → Entity
  | [] => defaultEntity
  | h :: t => t.foldl (fun acc e => if priority_lt acc e then e else acc) h

/-- Function `Timeline.converge`: merge `sub` into `main` (the focused
branch), grouping non-player instances by `(uid, pos)`, keeping the
best instance of each group, dropping `sub`-held uids at the sub
player's position only when `main` is itself holding, and putting the
focused player back at index 0. -/
def converge (main sub : BranchState) : BranchState :=
  let main_held := main.get_held_items
  let sub_held := sub.get_held_items
  let drop_uids : List Nat :=
    if main_held.isEmpty then []
    else sub_held.filter (fun u => !(main_held.contains u))
  let all_entities :=
    main.entities.filter (fun e => !(e.uid == 0)) ++
    sub.entities.filter (fun e => !(e.uid == 0))
  let keys := uniq (all_entities.map (fun e => (e.uid, e.pos)))
  let merged := keys.map (fun k =>
    let grp := all_entities.filter (fun e => (e.uid, e.pos) == k)
    let copied := Entity.copyE (best_of grp)
    if drop_uids.contains copied.uid && copied.holder == some 0 then
      { copied with holder := none, z := 0, collision := 1,
                    pos := sub.player.pos }
    else copied)
  { entities := Entity.copyE main.player :: merged,
    terrain := main.terrain, grid_size := main.grid_size }

/-- Target selection inside `Timeline.converge_one`: the held instance
first, else the instance at `target_pos` when given, else the first
instance. -/
def pick_target (instances : List Entity) (target_pos : Option Pos) :
    Entity :=
  match instances.find? (fun e => e.holder == some 0) with
  | some h => h
  | none =>
    match target_pos with
    | some tp =>
      match instances.find? (fun e => e.pos == tp) with
      | some a => a
      | none => instances.headD defaultEntity
    | none => instances.headD defaultEntity

/-- Function `Timeline.converge_one`: collapse all instances of
`target_uid` into one, removing the rest and appending the survivor at
the end of the entity list.  The returned flag records whether a target
was found (Python returns the aliased entity object or `None`). -/
def converge_one (s : BranchState) (target_uid : Nat)
    (target_pos : Option Pos := none) : BranchState × Bool :=
  let instances := s.entities.filter (fun e => e.uid == target_uid)
  if instances.isEmpty then (s, false)
  else
    ({ s with entities :=
        s.entities.filter (fun e => !(e.uid == target_uid)) ++
          [pick_target instances target_pos] },
     true)

/-- Mutation of the entity appended last by `converge_one` through the
alias Python returns (modify the final element in place). -/
def update_last : List Entity → (Entity → Entity) → List Entity
  | [], f => [f defaultEntity]
  | [a], f => [f a]
  | a :: b :: rest, f => a :: update_last (b :: rest) f

/-- Function `Timeline.settle_carried` on the precomputed held-uid set;
the raised flag models the `AttributeError` Python would raise if
`converge_one` returned `None` for a uid. -/
def settle_carried_go : List Nat → BranchState → BranchState × Bool
  | [], s => (s, false)
  | u :: rest, s =>
    let r := converge_one s u none
    if r.2 then
      let base := r.1
      let ppos := base.player.pos
      let ents := update_last base.entities (fun e =>
        { e with z := 1, holder := some 0, collision := 0, pos := ppos })
      settle_carried_go rest { base with entities := ents }
    else (r.1, true)

/-- Function `Timeline.settle_carried`: converge every held uid and
force the survivor to be held at the player's cell. -/
def settle_carried (s : BranchState) : BranchState × Bool :=
  let held := uniq s.get_held_items
  if held.isEmpty then (s, false) else settle_carried_go held s

end Timeline

namespace GameLogic

/-- Function `GameLogic.can_move` (`game_logic.py`): bounds, wall,
unfilled-hole and push validation.  The debug `print` has no state
effect and is omitted. -/
def can_move (s : BranchState) (direction : Pos) : Bool :=
  let new_pos := padd s.player.pos direction
  if !(decide (0 ≤ new_pos.1) && decide (new_pos.1 < s.grid_size) &&
       decide (0 ≤ new_pos.2) && decide (new_pos.2 < s.grid_size)) then
    false
  else if tget s.terrain new_pos == some TerrainType.WALL then
    false
  else
    let collision := Physics.collision_at new_pos s
    if decide (collision < 0) then false
    else if decide (0 < collision) then
      let pushable := s.entities.filter (fun e =>
        e.pos == new_pos && decide ((0 : Int) < e.collision) &&
        e.z == (0 : Int))
      if pushable.any (fun e => s.is_shadow e.uid) then false
      else
        let push_pos := padd new_pos direction
        if !(decide (0 ≤ push_pos.1) && decide (push_pos.1 < s.grid_size) &&
             decide (0 ≤ push_pos.2) && decide (push_pos.2 < s.grid_size)) then
          false
        else if tget s.terrain push_pos == some TerrainType.WALL then
          false
        else if decide (0 < Physics.collision_at push_pos s) then
          false
        else true
    else true

/-- Predicate selecting the entities `execute_move` pushes (grounded,
positive collision, standing on the target cell). -/
def pushed_pred (new_pos : Pos) (e : Entity) : Bool :=
  e.pos == new_pos && decide ((0 : Int) < e.collision) && e.z == (0 : Int)

/-- The carried-object update loop at the end of `execute_move`:
`for e in entities: if e.carrier == 0: e.pos = new_pos`.  Reading the
dynamic `carrier` attribute of an entity that never had it assigned
raises `AttributeError`; the raise leaves the remaining entities
untouched and the flag records the raise. -/
def carried_loop (new_pos : Pos) : List Entity → List Entity × Bool
  | [] => ([], false)
  | e :: rest =>
    match e.carrier with
    | none => (e :: rest, true)
    | some c =>
      let e' := if c == some 0 then { e with pos := new_pos } else e
      let r := carried_loop new_pos rest
      (e' :: r.1, r.2)

/-- Function `GameLogic.execute_move`: push grounded blockers one cell
onward, trigger hole fills at the push cell in list order, move the
player, then relocate carried objects.  The flag records the
`AttributeError` raised by the carried-object loop; the returned state
is the one Python leaves behind at the raise point (the in-place
mutations made so far persist). -/
def execute_move (s : BranchState) (direction : Pos) : BranchState × Bool :=
  let new_pos := padd s.player.pos direction
  let push_pos := padd new_pos direction
  let pushed_idx := (List.range s.entities.length).filter (fun i =>
    pushed_pred new_pos (s.entities.getD i defaultEntity))
  let ents1 :=
    if pushed_idx.isEmpty then s.entities
    else s.entities.map (fun e =>
      if pushed_pred new_pos e then { e with pos := push_pos } else e)
  let s1 := { s with entities := ents1 }
  let s2 := pushed_idx.foldl (fun st i => Physics.trigger_fill_at st i push_pos) s1
  let pl := s2.entities.headD defaultEntity
  let ents3 := s2.entities.set 0 { pl with pos := new_pos, direction := direction }
  let s3 := { s2 with entities := ents3 }
  let r := carried_loop new_pos s3.entities
  ({ s3 with entities := r.1 }, r.2)

/-- Function `GameLogic.try_pickup`: find a grounded box in front of the
player, collapse its instances with `converge_one`, then set the
dynamic `carrier` attribute, zero collision and move it onto the
player's cell (the survivor sits at the end of the entity list, aliased
by the Python return value of `converge_one`). -/
def try_pickup (s : BranchState) : BranchState × Bool :=
  let front_pos := padd s.player.pos s.player.direction
  match s.entities.find? (fun e =>
      e.pos == front_pos && e.type == EntityType.BOX && e.z == (0 : Int)) with
  | none => (s, false)
  | some target =>
    let r := Timeline.converge_one s target.uid none
    let base := r.1
    let ppos := base.player.pos
    let ents := Timeline.update_last base.entities (fun e =>
      { e with carrier := some (some 0), collision := 0, pos := ppos })
    ({ base with entities := ents }, true)

/-- The list comprehension `[e for e in entities if e.carrier == 0]` at
the top of `try_drop`: evaluating `e.carrier` raises `AttributeError`
at the first entity missing the attribute (`none` result). -/
def collect_held : List Entity → Option (List Entity)
  | [] => some []
  | e :: rest =>
    match e.carrier with
    | none => none
    | some c =>
      (collect_held rest).map (fun r => if c == some 0 then e :: r else r)

/-- Indices of the entities the drop loop mutates (those whose dynamic
`carrier` attribute equals `0`). -/
def held_idxs (l : List Entity) : List Nat :=
  (List.range l.length).filter (fun i =>
    (l.getD i defaultEntity).carrier == some (some 0))

/-- Function `GameLogic.try_drop`.  Result `none` models the
`AttributeError` raised while building the held list (the state is
untouched in that case, since the raise happens before any mutation);
`some b` is the Python return value `b`. -/
def try_drop (s : BranchState) : BranchState × Option Bool :=
  let front_pos := padd s.player.pos s.player.direction
  match collect_held s.entities with
  | none => (s, none)
  | some held =>
    if held.isEmpty then (s, some false)
    else if !(decide (0 ≤ front_pos.1) && decide (front_pos.1 < s.grid_size) &&
              decide (0 ≤ front_pos.2) && decide (front_pos.2 < s.grid_size)) then
      (s, some false)
    else if tget s.terrain front_pos == some TerrainType.WALL then
      (s, some false)
    else if decide (0 < Physics.collision_at front_pos s) then
      (s, some false)
    else
      let idxs := held_idxs s.entities
      let ents := s.entities.map (fun e =>
        if e.carrier == some (some 0) then
          { e with carrier := some none, collision := 1, pos := front_pos }
        else e)
      let s1 := { s with entities := ents }
      let s2 := idxs.foldl (fun st i => Physics.trigger_fill_at st i front_pos) s1
      (s2, some true)

end GameLogic

/-- Snapshot of game state for undo (`GameSnapshot` in
`game_controller.py`): it records only the two branches, the focus and
the branched flag — never the terminal `collapsed`/`victory` flags. -/
structure GameSnapshot where
  main_branch : BranchState
  sub_branch : Option BranchState
  current_focus : Nat
  has_branched : Bool
  deriving DecidableEq, Repr

/-- Controller session state (`GameController`); the immutable level
source and replay-only `input_log` bookkeeping are carried as plain
data. -/
structure GameController where
  main_branch : BranchState
  sub_branch : Option BranchState := none
  current_focus : Nat := 0
  has_branched : Bool := false
  collapsed : Bool := false
  victory : Bool := false
  history : List GameSnapshot := []
  input_log : List String := []
  deriving DecidableEq, Repr

namespace GameController

/-- Method `get_active_branch` (Python returns the aliased branch; with
focus 1 and no sub-branch it returns `None`, which the default keeps
total — theorems carry the session well-formedness hypothesis that
rules this case out). -/
def get_active_branch (c : GameController) : BranchState :=
  if c.current_focus == 0 then c.main_branch
  else c.sub_branch.getD { }

/-- Write the active branch back (Python mutates it through the alias
returned by `get_active_branch`). -/
def set_active (c : GameController) (b : BranchState) : GameController :=
  if c.current_focus == 0 then { c with main_branch := b }
  else { c with sub_branch := some b }

/-- Method `_save_snapshot`: deep-copied branches, focus and branched
flag are appended to the history. -/
def save_snapshot (c : GameController) : GameController :=
  { c with history := c.history ++
      [{ main_branch := c.main_branch.copy,
         sub_branch := c.sub_branch.map BranchState.copy,
         current_focus := c.current_focus,
         has_branched := c.has_branched }] }

/-- Method `undo`: refuse when only the initial snapshot remains, else
pop the history and the input log, restore the previous snapshot and
clear both terminal flags. -/
def undo (c : GameController) : GameController × Bool :=
  if c.history.length ≤ 1 then (c, false)
  else
    let hist := c.history.dropLast
    let il := c.input_log.dropLast
    let snap := (hist.getLast? |>.getD
      { main_branch := c.main_branch, sub_branch := none,
        current_focus := 0, has_branched := false })
    ({ c with history := hist, input_log := il,
              main_branch := snap.main_branch.copy,
              sub_branch := snap.sub_branch.map BranchState.copy,
              current_focus := snap.current_focus,
              has_branched := snap.has_branched,
              collapsed := false, victory := false }, true)

/-- Method `update_physics`: run the settle pass on the active branch
and latch the collapsed flag on a fall. -/
def update_physics (c : GameController) : GameController :=
  let r := Physics.step (get_active_branch c)
  let c' := set_active c r.1
  if r.2 == PhysicsResult.FALL then { c' with collapsed := true } else c'

/-- Method `get_merge_preview`: the main branch when unbranched, else
`converge` of (focused, other) followed by `settle_carried` on a copy. -/
def get_merge_preview (c : GameController) : BranchState :=
  if !c.has_branched then c.main_branch
  else
    let focused := if c.current_focus == 0 then c.main_branch
                   else c.sub_branch.getD { }
    let other := if c.current_focus == 0 then c.sub_branch.getD { }
                 else c.main_branch
    let merged := Timeline.converge focused other
    (Timeline.settle_carried merged.copy).1

/-- Table `BRANCH_DECREMENT`. -/
def branch_decrement : Option TerrainType → Option TerrainType
  | some TerrainType.BRANCH4 => some TerrainType.BRANCH3
  | some TerrainType.BRANCH3 => some TerrainType.BRANCH2
  | some TerrainType.BRANCH2 => some TerrainType.BRANCH1
  | some TerrainType.BRANCH1 => some TerrainType.FLOOR
  | _ => none

/-- Method `try_branch`: refuse when already branched or not on a
branch point; otherwise decrement the branch-point uses in the main
branch, diverge and snapshot. -/
def try_branch (c : GameController) : GameController × Bool :=
  if c.has_branched then (c, false)
  else
    let active := get_active_branch c
    match branch_decrement (tget active.terrain active.player.pos) with
    | none => (c, false)
    | some nt =>
      let main' := { c.main_branch with
        terrain := tset c.main_branch.terrain active.player.pos nt }
      let c1 := { c with main_branch := main',
                         sub_branch := some (Timeline.diverge main'),
                         has_branched := true,
                         input_log := c.input_log ++ ["V"] }
      (save_snapshot c1, true)

/-- Method `try_merge`: refuse when unbranched; otherwise converge
(focused, other), settle carried items, install the merged branch as
main and snapshot. -/
def try_merge (c : GameController) : GameController × Bool :=
  if !c.has_branched then (c, false)
  else
    let focused := if c.current_focus == 0 then c.main_branch
                   else c.sub_branch.getD { }
    let other := if c.current_focus == 0 then c.sub_branch.getD { }
                 else c.main_branch
    let merged := (Timeline.settle_carried (Timeline.converge focused other)).1
    let c1 := { c with main_branch := merged, sub_branch := none,
                       has_branched := false, current_focus := 0,
                       input_log := c.input_log ++ ["C"] }
    (save_snapshot c1, true)

/-- Key label for a direction (`dir_key` dict in `handle_move`); any
other direction raises `KeyError` in Python. -/
def dir_key : Pos → Option String
  | (0, -1) => some "U"
  | (0, 1) => some "D"
  | (-1, 0) => some "L"
  | (1, 0) => some "R"
  | _ => none

/-- Set the active player's facing
(`active.player.direction = direction`). -/
def set_player_dir (b : BranchState) (direction : Pos) : BranchState :=
  { b with entities :=
      b.entities.set 0 { b.entities.headD defaultEntity with
                          direction := direction } }

/-- Tail of `handle_move` (the `can_move`/`execute_move` attempt on the
active branch); result `none` models the `AttributeError` escaping from
`execute_move`, in which case neither the input log nor the history is
touched but the branch keeps the mutations made before the raise. -/
def attempt_move (c : GameController) (direction : Pos) (key : String) :
    GameController × Option Bool :=
  let active := get_active_branch c
  if GameLogic.can_move active direction then
    let r := GameLogic.execute_move active direction
    let c' := set_active c r.1
    if r.2 then (c', none)
    else (save_snapshot { c' with input_log := c'.input_log ++ [key] },
          some true)
  else (c, some false)

/-- Method `handle_move` with the object-adaptive two-step turning:
when holding or facing a box, a direction change only turns; otherwise
the facing is updated immediately and the move is attempted. -/
def handle_move (c : GameController) (direction : Pos) :
    GameController × Option Bool :=
  let active := get_active_branch c
  let target_pos := padd active.player.pos direction
  let has_box_ahead := active.has_box_at target_pos
  let is_holding := !active.get_held_items.isEmpty
  match dir_key direction with
  | none => (c, none)
  | some key =>
    if is_holding || has_box_ahead then
      if !(active.player.direction == direction) then
        let c' := set_active c (set_player_dir active direction)
        (save_snapshot { c' with input_log := c'.input_log ++ [key] },
         some true)
      else attempt_move c direction key
    else
      attempt_move (set_active c (set_player_dir active direction))
        direction key

/-- Method `handle_pickup`. -/
def handle_pickup (c : GameController) : GameController × Bool :=
  let r := GameLogic.try_pickup (get_active_branch c)
  if r.2 then
    let c' := set_active c r.1
    (save_snapshot { c' with input_log := c'.input_log ++ ["P"] }, true)
  else (set_active c r.1, false)

/-- Method `check_victory`: always false while branched (the early
return does not touch the victory flag); otherwise all switches must
carry weight and the player must stand on the goal, evaluated on the
merge preview (which is the main branch when unbranched). -/
def check_victory (c : GameController) : GameController × Bool :=
  if c.has_branched then (c, false)
  else
    let preview := get_merge_preview c
    let ok := preview.all_switches_activated &&
      (tget preview.terrain preview.player.pos == some TerrainType.GOAL)
    ({ c with victory := ok }, ok)

/-- Hint tuple returned by `get_interaction_hint`. -/
structure Hint where
  text : String
  color : Int × Int × Int
  target : Option Pos
  is_drop : Bool
  deriving DecidableEq, Repr

/-- Method `get_interaction_hint`: drop hint while holding, nothing
while standing on a no-carry cell, else a converge hint for a shadow in
front or a pickup hint for a solid box. -/
def get_interaction_hint (c : GameController) : Hint :=
  let active := get_active_branch c
  let front_pos := padd active.player.pos active.player.direction
  if !active.get_held_items.isEmpty then
    if decide (Physics.collision_at front_pos active ≤ 0) then
      { text := "放下", color := (50, 200, 50), target := some front_pos,
        is_drop := true }
    else
      { text := "", color := (0, 0, 0), target := none, is_drop := false }
  else if Physics.effective_capacity active (some active.player.pos) == 0 then
    { text := "", color := (0, 0, 0), target := none, is_drop := false }
  else
    match active.find_box_at front_pos with
    | none => { text := "", color := (0, 0, 0), target := none,
                is_drop := false }
    | some target =>
      if active.is_shadow target.uid then
        { text := "收束", color := (0, 220, 220), target := some front_pos,
          is_drop := false }
      else
        { text := "拾取", color := (50, 200, 50), target := some front_pos,
          is_drop := false }

end GameController

/-! Verification-support definitions: the branch well-formedness
predicate from the data model (exactly one player entity, sitting at
index 0 with uid 0, holding nothing itself, all other entities boxes
with positive uids), entity relations used to track what the mutating
operations may change, and concrete states exercising the claims. -/

/-- Branch data-model invariant on the entity list: the player (uid 0,
kind PLAYER, not itself held) sits at index 0 and every other entity is
a box with a positive uid. -/
def wfList : List Entity → Bool
  | [] => false
  | p :: rest =>
    p.uid == 0 && p.type == EntityType.PLAYER && p.holder == none &&
    rest.all (fun e => !(e.uid == 0) && e.type == EntityType.BOX)

/-- Branch well-formedness. -/
def wf (s : BranchState) : Bool := wfList s.entities

/-- The claimed player-at-index-0 property: exactly one entity of kind
PLAYER exists and it is the first element of the entity collection. -/
def playerAtZero (s : BranchState) : Prop :=
  ∃ p rest, s.entities = p :: rest ∧ p.type = EntityType.PLAYER ∧
    ∀ e ∈ rest, e.type ≠ EntityType.PLAYER

/-- Identity-relevant fields never touched by the operations that only
move entities around: uid, kind and holder. -/
def coreEq (a b : Entity) : Prop :=
  b.uid = a.uid ∧ b.type = a.type ∧ b.holder = a.holder

/-- Effect of the hole-settling scan on one entity: unchanged, or a
grounded box buried in place. -/
def settleRel (a b : Entity) : Prop :=
  b = a ∨ (a.type = EntityType.BOX ∧ a.z = 0 ∧ b = { a with z := -1 })

/-- Branch state with every facing normalised, used to express "equal
except possibly for the player's facing". -/
def strip_dirs_branch (s : BranchState) : BranchState :=
  { s with entities := s.entities.map (fun e => { e with direction := (0, 1) }) }

/-- Session state with every facing normalised. -/
def strip_dirs (c : GameController) : GameController :=
  { c with main_branch := strip_dirs_branch c.main_branch,
           sub_branch := c.sub_branch.map strip_dirs_branch }

/-- Player entity at `p` with the dataclass defaults. -/
def mkPlayer (p : Pos) : Entity := { uid := 0, type := .PLAYER, pos := p }

/-- Grounded box with uid `u` at `p`. -/
def mkBox (u : Nat) (p : Pos) : Entity := { uid := u, type := .BOX, pos := p }

/-- Box held by the player, as the bundled merge tests build it
(holder 0, layer 1, collision 0). -/
def mkHeldBox (u : Nat) (p : Pos) : Entity :=
  { uid := u, type := .BOX, pos := p, collision := 0, z := 1, holder := some 0 }

/-- The all-floor 6x6 terrain the bundled merge tests build. -/
def floor6 : Terrain :=
  (List.range 6).flatMap (fun x => (List.range 6).map
    (fun y => (((x : Int), (y : Int)), TerrainType.FLOOR)))

/-- Player at (2,2) facing a grounded box at (2,3). -/
def pickupState : BranchState :=
  { entities := [mkPlayer (2, 2), mkBox 1 (2, 3)], grid_size := 6 }

/-- Focused branch of the bundled test
`test_case_4_focus_empty_sub_b2_normal_merge`: empty-handed player at
(2,2). -/
def mergeMain : BranchState :=
  { entities := [mkPlayer (2, 2)], terrain := floor6, grid_size := 6 }

/-- Sub branch of the same test: player at (2,3) holding box 2. -/
def mergeSub : BranchState :=
  { entities := [mkPlayer (2, 3), mkHeldBox 2 (2, 3)], terrain := floor6,
    grid_size := 6 }

/-- Result of the normal merge path (`converge` then `settle_carried`)
on the test-case-4 inputs. -/
def mergeNormal : BranchState :=
  (Timeline.settle_carried (Timeline.converge mergeMain mergeSub)).1

/-- Player standing on an unfilled hole with no box anywhere near. -/
def holeState : BranchState :=
  { entities := [mkPlayer (1, 1)], terrain := [((1, 1), .HOLE)],
    grid_size := 3 }

/-- Player standing on a no-carry cell, facing a grounded box. -/
def noCarryState : BranchState :=
  { entities := [mkPlayer (2, 2), mkBox 1 (2, 3)],
    terrain := [((2, 2), .NO_CARRY)], grid_size := 6 }

/-- Session whose active branch is `noCarryState`. -/
def noCarrySession : GameController := { main_branch := noCarryState }

/-- Branch with the player on the goal and a box on the only switch. -/
def goalSwitchBranch : BranchState :=
  { entities := [mkPlayer (0, 0), mkBox 1 (1, 1)],
    terrain := [((0, 0), .GOAL), ((1, 1), .SWITCH)], grid_size := 3 }

/-- Branched session whose merge preview satisfies both victory
conditions. -/
def branchedSession : GameController :=
  { main_branch := goalSwitchBranch, sub_branch := some goalSwitchBranch,
    has_branched := true }

/-- The same winning state, unbranched. -/
def unbranchedSession : GameController := { main_branch := goalSwitchBranch }

/-- Branch with a player and two boxes at distinct cells, used for the
round-trip witness. -/
def roundTripState : BranchState :=
  { entities := [mkPlayer (2, 2), mkBox 1 (1, 1), mkBox 2 (0, 3)],
    terrain := [((0, 0), .GOAL)], grid_size := 6 }

/-- Session with the player in the top-left corner of an open floor. -/
def openSession : GameController :=
  { main_branch := { entities := [mkPlayer (0, 0)], grid_size := 3 } }

/-- Session with one action in its history and both terminal flags
latched. -/
def undoSession : GameController :=
  { main_branch := goalSwitchBranch, collapsed := true, victory := true,
    history :=
      [{ main_branch := goalSwitchBranch, sub_branch := none,
         current_focus := 0, has_branched := false },
       { main_branch := goalSwitchBranch, sub_branch := none,
         current_focus := 0, has_branched := false }] }

/-! Generic lemmas about the helper combinators. -/

theorem uniq_subset [BEq α] (l : List α) : ∀ a ∈ uniq l, a ∈ l := by
  induction l with
  | nil => intro a h; cases h
  | cons b rest ih =>
    intro a h
    rcases List.mem_cons.mp h with rfl | h2
    · exact List.mem_cons_self _ _
    · exact List.mem_cons_of_mem _ (ih a (List.mem_of_mem_filter h2))

theorem mem_uniq [BEq α] [LawfulBEq α] (l : List α) : ∀ a ∈ l, a ∈ uniq l := by
  induction l with
  | nil => intro a h; cases h
  | cons b rest ih =>
    intro a h
    rcases List.mem_cons.mp h with rfl | h2
    · exact List.mem_cons_self _ _
    · by_cases hab : a = b
      · subst hab; exact List.mem_cons_self _ _
      · refine List.mem_cons_of_mem _ ?_
        refine List.mem_filter.mpr ⟨ih a h2, ?_⟩
        simp [hab]

theorem forall2_refl {R : Entity → Entity → Prop} (hr : ∀ a, R a a)
    (l : List Entity) : List.Forall₂ R l l := by
  induction l with
  | nil => exact .nil
  | cons a t ih => exact .cons (hr a) ih

theorem forall2_trans {R : Entity → Entity → Prop}
    (ht : ∀ a b c, R a b → R b c → R a c) :
    ∀ {l1 l2 l3 : List Entity}, List.Forall₂ R l1 l2 → List.Forall₂ R l2 l3 →
      List.Forall₂ R l1 l3 := by
  intro l1 l2 l3 h12
  induction h12 generalizing l3 with
  | nil => intro h23; cases h23; exact .nil
  | cons hab h ih =>
    intro h23
    cases h23 with
    | cons hbc h' => exact .cons (ht _ _ _ hab hbc) (ih h')

theorem forall2_mem_right {R : Entity → Entity → Prop} :
    ∀ {l l' : List Entity}, List.Forall₂ R l l' → ∀ b ∈ l', ∃ a ∈ l, R a b := by
  intro l l' h
  induction h with
  | nil => intro b hb; cases hb
  | cons hab h ih =>
    intro b hb
    rcases List.mem_cons.mp hb with rfl | hb2
    · exact ⟨_, List.mem_cons_self _ _, hab⟩
    · obtain ⟨a, ha, hr⟩ := ih b hb2
      exact ⟨a, List.mem_cons_of_mem _ ha, hr⟩

theorem forall2_map {R : Entity → Entity → Prop} (f : Entity → Entity)
    (hf : ∀ a, R a (f a)) (l : List Entity) : List.Forall₂ R l (l.map f) := by
  induction l with
  | nil => exact .nil
  | cons a t ih => exact .cons (hf a) ih

theorem forall2_set {R : Entity → Entity → Prop} (hr : ∀ a, R a a) :
    ∀ (l : List Entity) (i : Nat) (x : Entity),
      (i < l.length → R (l.getD i defaultEntity) x) →
      List.Forall₂ R l (l.set i x) := by
  intro l
  induction l with
  | nil => intro i x _; exact .nil
  | cons a t ih =>
    intro i x hx
    cases i with
    | zero =>
      refine .cons ?_ (forall2_refl hr t)
      have := hx (by simp)
      simpa using this
    | succ j =>
      refine .cons (hr a) (ih j x ?_)
      intro h
      have := hx (by simpa using Nat.succ_lt_succ h)
      simpa using this

theorem coreEq_refl (a : Entity) : coreEq a a := ⟨rfl, rfl, rfl⟩

theorem coreEq_trans (a b c : Entity) (h1 : coreEq a b) (h2 : coreEq b c) :
    coreEq a c :=
  ⟨h2.1.trans h1.1, h2.2.1.trans h1.2.1, h2.2.2.trans h1.2.2⟩

theorem settleRel_refl (a : Entity) : settleRel a a := Or.inl rfl

theorem settleRel_trans (a b c : Entity) (h1 : settleRel a b)
    (h2 : settleRel b c) : settleRel a c := by
  rcases h1 with rfl | ⟨hty, hz, rfl⟩
  · exact h2
  · rcases h2 with rfl | ⟨hty2, hz2, rfl⟩
    · exact Or.inr ⟨hty, hz, rfl⟩
    · simp at hz2

theorem settleRel_coreEq (a b : Entity) (h : settleRel a b) : coreEq a b := by
  rcases h with rfl | ⟨_, _, rfl⟩
  · exact coreEq_refl _
  · exact ⟨rfl, rfl, rfl⟩

theorem settleRel_pos (a b : Entity) (h : settleRel a b) : b.pos = a.pos := by
  rcases h with rfl | ⟨_, _, rfl⟩ <;> rfl

theorem settleRel_collision (a b : Entity) (h : settleRel a b) :
    b.collision = a.collision := by
  rcases h with rfl | ⟨_, _, rfl⟩ <;> rfl

theorem settleRel_player (a b : Entity) (h : settleRel a b)
    (hp : a.type = EntityType.PLAYER) : b = a := by
  rcases h with rfl | ⟨hty, _, rfl⟩
  · rfl
  · rw [hp] at hty; cases hty

theorem wfList_iff (l : List Entity) :
    wfList l = true ↔ ∃ p rest, l = p :: rest ∧ p.uid = 0 ∧
      p.type = EntityType.PLAYER ∧ p.holder = none ∧
      ∀ e ∈ rest, e.uid ≠ 0 ∧ e.type = EntityType.BOX := by
  cases l with
  | nil => simp [wfList]
  | cons p rest =>
    constructor
    · intro h
      simp only [wfList, Bool.and_eq_true, beq_iff_eq, List.all_eq_true,
        Bool.not_eq_true'] at h
      obtain ⟨⟨⟨h0, h1⟩, h2⟩, h3⟩ := h
      refine ⟨p, rest, rfl, h0, h1, h2, ?_⟩
      intro e he
      have h4 := h3 e he
      simp only [Bool.and_eq_true, beq_iff_eq, Bool.not_eq_true'] at h4
      exact ⟨by simpa using h4.1, h4.2⟩
    · rintro ⟨p', rest', heq, h0, h1, h2, h3⟩
      cases heq
      simp only [wfList, Bool.and_eq_true, beq_iff_eq, List.all_eq_true]
      refine ⟨⟨⟨h0, h1⟩, h2⟩, ?_⟩
      intro e he
      obtain ⟨hu, ht⟩ := h3 e he
      simp [hu, ht]

theorem wfList_forall2 {l l' : List Entity} (h : wfList l = true)
    (h2 : List.Forall₂ coreEq l l') : wfList l' = true := by
  obtain ⟨p, rest, rfl, h0, h1, hh, h3⟩ := (wfList_iff l).mp h
  cases h2 with
  | cons hc ht =>
    rename_i p' rest'
    refine (wfList_iff _).mpr ⟨p', rest', rfl, ?_, ?_, ?_, ?_⟩
    · exact hc.1.trans h0
    · exact hc.2.1.trans h1
    · exact hc.2.2.trans hh
    · intro e he
      obtain ⟨a, ha, hr⟩ := forall2_mem_right ht e he
      obtain ⟨hu, htp⟩ := h3 a ha
      exact ⟨hr.1.symm ▸ hu, hr.2.1.symm ▸ htp⟩

theorem settle_step_forall2 (t : Terrain) (acc : List Entity × Bool)
    (i : Nat) : List.Forall₂ settleRel acc.1 (Physics.settle_step t acc i).1 := by
  unfold Physics.settle_step
  dsimp only
  split
  · rename_i hcond
    simp only [Bool.and_eq_true, beq_iff_eq] at hcond
    refine forall2_set settleRel_refl acc.1 i _ (fun h => ?_)
    exact Or.inr ⟨hcond.1.1.1, hcond.1.1.2, rfl⟩
  · exact forall2_refl settleRel_refl _

theorem settle_fold_forall2 (t : Terrain) (l : List Entity) :
    ∀ (idxs : List Nat) (acc : List Entity × Bool),
      List.Forall₂ settleRel l acc.1 →
      List.Forall₂ settleRel l (idxs.foldl (Physics.settle_step t) acc).1 := by
  intro idxs
  induction idxs with
  | nil => intro acc h; exact h
  | cons i rest ih =>
    intro acc h
    exact ih _ (forall2_trans settleRel_trans h (settle_step_forall2 t acc i))

theorem settle_scan_forall2 (t : Terrain) (l : List Entity) :
    List.Forall₂ settleRel l (Physics.settle_scan t l).1 :=
  settle_fold_forall2 t l _ _ (forall2_refl settleRel_refl l)

theorem settle_loop_forall2 (t : Terrain) :
    ∀ (fuel : Nat) (l : List Entity),
      List.Forall₂ settleRel l (Physics.settle_loop t fuel l) := by
  intro fuel
  induction fuel with
  | zero => intro l; exact forall2_refl settleRel_refl l
  | succ n ih =>
    intro l
    unfold Physics.settle_loop
    dsimp only
    split
    · exact forall2_trans settleRel_trans (settle_scan_forall2 t l) (ih _)
    · exact settle_scan_forall2 t l

theorem collision_at_hole_self (ents : List Entity) (terr : Terrain)
    (gs : Int) (p : Entity) (rest : List Entity)
    (hent : ents = p :: rest)
    (hz : p.z = 0) (hcol : p.collision = 1)
    (hterr : tget terr p.pos = some TerrainType.HOLE)
    (hrest : ∀ e ∈ rest, e.pos ≠ p.pos) :
    Physics.collision_at p.pos
      { entities := ents, terrain := terr, grid_size := gs } = 0 := by
  subst hent
  have hfill : BranchState.is_hole_filled
      { entities := p :: rest, terrain := terr, grid_size := gs } p.pos
      = false := by
    unfold BranchState.is_hole_filled
    rw [List.any_eq_false]
    intro e he
    rcases List.mem_cons.mp he with rfl | he2
    · simp [hz]
    · simp [hrest e he2]
  have hsum : BranchState.sum_ground_collision_at
      { entities := p :: rest, terrain := terr, grid_size := gs } p.pos
      = 1 := by
    unfold BranchState.sum_ground_collision_at
    dsimp only
    rw [List.filter_cons_of_pos (by simp [hz]),
        List.filter_eq_nil_iff.mpr (fun e he => by simp [hrest e he])]
    simp [hcol]
  unfold Physics.collision_at
  dsimp only
  rw [hterr]
  rw [if_pos (by simp), hfill, hsum]
  simp

theorem strip_set_player_dir (b : BranchState) (d : Pos) :
    strip_dirs_branch (GameController.set_player_dir b d) =
      strip_dirs_branch b := by
  unfold GameController.set_player_dir strip_dirs_branch
  cases hb : b.entities with
  | nil => simp
  | cons e t => simp

theorem strip_set_active_dir (c : GameController) (d : Pos)
    (hwf : c.current_focus = 0 ∨ c.sub_branch.isSome = true) :
    strip_dirs (GameController.set_active c
      (GameController.set_player_dir (GameController.get_active_branch c) d))
      = strip_dirs c := by
  unfold GameController.set_active GameController.get_active_branch strip_dirs
  by_cases hf : c.current_focus == 0
  · simp [hf, strip_set_player_dir]
  · rcases hwf with h0 | hs
    · rw [h0] at hf; simp at hf
    · obtain ⟨b0, hb⟩ := Option.isSome_iff_exists.mp hs
      simp [hf, hb, strip_set_player_dir]

theorem attempt_move_reject (c : GameController) (d : Pos) (k : String)
    (h : (GameController.attempt_move c d k).2 = some false) :
    (GameController.attempt_move c d k).1 = c := by
  by_cases hc : GameLogic.can_move (GameController.get_active_branch c) d
  · exfalso
    simp only [GameController.attempt_move, hc, if_true] at h
    by_cases hr : (GameLogic.execute_move (GameController.get_active_branch c)
        d).2 = true
    · simp [hr] at h
    · simp [hr] at h
  · simp [GameController.attempt_move, hc]

theorem handle_move_reject (c : GameController) (d : Pos)
    (hwf : c.current_focus = 0 ∨ c.sub_branch.isSome = true)
    (h : (GameController.handle_move c d).2 = some false) :
    strip_dirs (GameController.handle_move c d).1 = strip_dirs c := by
  unfold GameController.handle_move at h ⊢
  cases hk : GameController.dir_key d with
  | none => rw [hk] at h
  | some key =>
    rw [hk] at h
    dsimp only at h ⊢
    by_cases h2 : (!(GameController.get_active_branch c).get_held_items.isEmpty
        || (GameController.get_active_branch c).has_box_at
            (padd (GameController.get_active_branch c).player.pos d)) = true
    · rw [if_pos h2] at h ⊢
      by_cases h3 : (!((GameController.get_active_branch c).player.direction
          == d)) = true
      · rw [if_pos h3] at h; cases h
      · rw [if_neg h3] at h ⊢
        rw [attempt_move_reject c d key h]
    · rw [if_neg h2] at h ⊢
      rw [attempt_move_reject _ d key h]
      exact strip_set_active_dir c d hwf

theorem try_branch_reject (c : GameController)
    (h : (GameController.try_branch c).2 = false) :
    (GameController.try_branch c).1 = c := by
  unfold GameController.try_branch at h ⊢
  by_cases hb : c.has_branched
  · simp [hb]
  · simp only [hb, Bool.false_eq_true, if_false] at h ⊢
    cases hdec : GameController.branch_decrement
        (tget (GameController.get_active_branch c).terrain
          (GameController.get_active_branch c).player.pos) with
    | none => rfl
    | some nt => rw [hdec] at h; dsimp only at h; cases h

theorem try_merge_reject (c : GameController)
    (h : (GameController.try_merge c).2 = false) :
    (GameController.try_merge c).1 = c := by
  unfold GameController.try_merge at h ⊢
  by_cases hb : c.has_branched
  · simp [hb] at h
  · simp [hb]

theorem try_drop_unchanged (s : BranchState)
    (h : ¬ (GameLogic.try_drop s).2 = some true) :
    (GameLogic.try_drop s).1 = s := by
  unfold GameLogic.try_drop at h ⊢
  cases hc : GameLogic.collect_held s.entities with
  | none => rfl
  | some held =>
    rw [hc] at h
    dsimp only at h ⊢
    by_cases h1 : held.isEmpty = true
    · rw [if_pos h1]
    · rw [if_neg h1] at h ⊢
      by_cases h2 : (!(decide (0 ≤ (padd s.player.pos s.player.direction).1) &&
          decide ((padd s.player.pos s.player.direction).1 < s.grid_size) &&
          decide (0 ≤ (padd s.player.pos s.player.direction).2) &&
          decide ((padd s.player.pos s.player.direction).2 < s.grid_size)))
          = true
      · rw [if_pos h2]
      · rw [if_neg h2] at h ⊢
        by_cases h3 : (tget s.terrain (padd s.player.pos s.player.direction)
            == some TerrainType.WALL) = true
        · rw [if_pos h3]
        · rw [if_neg h3] at h ⊢
          by_cases h4 : decide (0 < Physics.collision_at
              (padd s.player.pos s.player.direction) s) = true
          · rw [if_pos h4]
          · rw [if_neg h4] at h
            exact absurd rfl h

theorem filter_not_contains (l : List Nat) :
    l.filter (fun u => !(l.contains u)) = [] := by
  rw [List.filter_eq_nil_iff]
  intro a ha
  simp [ha]

theorem held_filter_copy (l : List Entity) :
    ((l.map Entity.copyE).filter (fun e => e.holder == some 0)).map
        (fun e => e.uid)
      = (l.filter (fun e => e.holder == some 0)).map (fun e => e.uid) := by
  induction l with
  | nil => rfl
  | cons a t ih =>
    by_cases hc : (a.holder == some 0) = true
    · simp [List.filter_cons, Entity.copyE, hc, ih]
    · simp [List.filter_cons, Entity.copyE, hc, ih]

theorem held_copy (B : BranchState) :
    (BranchState.copy B).get_held_items = B.get_held_items := by
  unfold BranchState.copy BranchState.get_held_items
  dsimp only
  exact held_filter_copy B.entities

theorem best_fold_choice :
    ∀ (t : List Entity) (acc : Entity),
      (t.foldl (fun acc e => if Timeline.priority_lt acc e then e else acc)
        acc) = acc ∨
      (t.foldl (fun acc e => if Timeline.priority_lt acc e then e else acc)
        acc) ∈ t := by
  intro t
  induction t with
  | nil => intro acc; exact Or.inl rfl
  | cons b t2 ih =>
    intro acc
    dsimp only [List.foldl]
    rcases ih (if Timeline.priority_lt acc b then b else acc) with h | h
    · rw [h]
      by_cases hc : Timeline.priority_lt acc b = true
      · rw [if_pos hc]; exact Or.inr (List.mem_cons_self _ _)
      · rw [if_neg hc]; exact Or.inl rfl
    · exact Or.inr (List.mem_cons_of_mem _ h)

theorem best_of_mem (l : List Entity) (h : l ≠ []) : Timeline.best_of l ∈ l := by
  cases l with
  | nil => exact absurd rfl h
  | cons a t =>
    unfold Timeline.best_of
    dsimp only
    rcases best_fold_choice t a with h2 | h2
    · rw [h2]; exact List.mem_cons_self _ _
    · exact List.mem_cons_of_mem _ h2

theorem converge_mem_self (main sub : BranchState)
    (hheld : main.get_held_items = sub.get_held_items) :
    ∀ e ∈ (Timeline.converge main sub).entities,
      e = Entity.copyE main.player ∨
      ∃ a, (a ∈ main.entities ∨ a ∈ sub.entities) ∧ ¬(a.uid = 0) ∧
        e.uid = a.uid ∧ e.pos = a.pos := by
  intro e he
  unfold Timeline.converge at he
  dsimp only at he
  simp only [hheld, filter_not_contains, ite_self, List.contains_nil,
    Bool.false_and, Bool.false_eq_true, if_false] at he
  rcases List.mem_cons.mp he with rfl | hmap
  · exact Or.inl rfl
  · right
    obtain ⟨k, hk, rfl⟩ := List.mem_map.mp hmap
    have hk2 := uniq_subset _ _ hk
    obtain ⟨a0, ha0, hfa0⟩ := List.mem_map.mp hk2
    have ha0grp : a0 ∈ List.filter (fun e => (e.uid, e.pos) == k)
        (List.filter (fun e => !(e.uid == 0)) main.entities ++
          List.filter (fun e => !(e.uid == 0)) sub.entities) :=
      List.mem_filter.mpr ⟨ha0, by simp [hfa0]⟩
    have hne := List.ne_nil_of_mem ha0grp
    have hb := best_of_mem _ hne
    have hbF := List.mem_filter.mp hb
    rcases List.mem_append.mp hbF.1 with hm | hs
    · have h2 := List.mem_filter.mp hm
      refine ⟨Timeline.best_of _, Or.inl h2.1, ?_, rfl, rfl⟩
      simpa using h2.2
    · have h2 := List.mem_filter.mp hs
      refine ⟨Timeline.best_of _, Or.inr h2.1, ?_, rfl, rfl⟩
      simpa using h2.2

theorem converge_mem_self_rev (main sub : BranchState)
    (hheld : main.get_held_items = sub.get_held_items) :
    ∀ a ∈ sub.entities, ¬(a.uid = 0) →
      ∃ e ∈ (Timeline.converge main sub).entities,
        e.uid = a.uid ∧ e.pos = a.pos := by
  intro a ha hu
  unfold Timeline.converge
  dsimp only
  simp only [hheld, filter_not_contains, ite_self, List.contains_nil,
    Bool.false_and, Bool.false_eq_true, if_false]
  have haF : a ∈ List.filter (fun e => !(e.uid == 0)) sub.entities :=
    List.mem_filter.mpr ⟨ha, by simp [hu]⟩
  have haAll : a ∈ (List.filter (fun e => !(e.uid == 0)) main.entities ++
      List.filter (fun e => !(e.uid == 0)) sub.entities) :=
    List.mem_append_right _ haF
  have hk : (a.uid, a.pos) ∈ uniq (List.map (fun e => (e.uid, e.pos))
      (List.filter (fun e => !(e.uid == 0)) main.entities ++
        List.filter (fun e => !(e.uid == 0)) sub.entities)) :=
    mem_uniq _ _ (List.mem_map_of_mem _ haAll)
  have hagrp : a ∈ List.filter (fun e => (e.uid, e.pos) == (a.uid, a.pos))
      (List.filter (fun e => !(e.uid == 0)) main.entities ++
        List.filter (fun e => !(e.uid == 0)) sub.entities) :=
    List.mem_filter.mpr ⟨haAll, by simp⟩
  have hne := List.ne_nil_of_mem hagrp
  have hb := best_of_mem _ hne
  have hbF := List.mem_filter.mp hb
  have hbk : ((Timeline.best_of (List.filter
      (fun e => (e.uid, e.pos) == (a.uid, a.pos))
      (List.filter (fun e => !(e.uid == 0)) main.entities ++
        List.filter (fun e => !(e.uid == 0)) sub.entities))).uid,
      (Timeline.best_of (List.filter
      (fun e => (e.uid, e.pos) == (a.uid, a.pos))
      (List.filter (fun e => !(e.uid == 0)) main.entities ++
        List.filter (fun e => !(e.uid == 0)) sub.entities))).pos)
      = (a.uid, a.pos) := by
    have := hbF.2
    simpa using this
  refine ⟨Entity.copyE (Timeline.best_of (List.filter
      (fun e => (e.uid, e.pos) == (a.uid, a.pos))
      (List.filter (fun e => !(e.uid == 0)) main.entities ++
        List.filter (fun e => !(e.uid == 0)) sub.entities))),
    List.mem_cons_of_mem _ (List.mem_map.mpr ⟨(a.uid, a.pos), hk, rfl⟩),
    ?_, ?_⟩
  · simpa using congrArg Prod.fst hbk
  · simpa using congrArg Prod.snd hbk

theorem headD_mem (l : List Entity) (h : l ≠ []) :
    l.headD defaultEntity ∈ l := by
  cases l with
  | nil => exact absurd rfl h
  | cons a t => exact List.mem_cons_self _ _

theorem pick_target_mem (instances : List Entity) (tp : Option Pos)
    (h : instances ≠ []) : Timeline.pick_target instances tp ∈ instances := by
  unfold Timeline.pick_target
  cases hf : instances.find? (fun e => e.holder == some 0) with
  | some x => exact List.mem_of_find?_eq_some hf
  | none =>
    dsimp only
    cases tp with
    | none => exact headD_mem _ h
    | some q =>
      dsimp only
      cases hf2 : instances.find? (fun e => e.pos == q) with
      | some x => dsimp only; exact List.mem_of_find?_eq_some hf2
      | none => dsimp only; exact headD_mem _ h

theorem converge_one_cases (s : BranchState) (u : Nat) (tp : Option Pos)
    (p : Entity) (rest : List Entity)
    (hent : s.entities = p :: rest) (hp : p.uid = 0) (hu : u ≠ 0) :
    Timeline.converge_one s u tp = (s, false) ∨
    ∃ target, target ∈ rest ∧
      (Timeline.converge_one s u tp).1.entities =
        p :: (rest.filter (fun e => !(e.uid == u)) ++ [target]) ∧
      (Timeline.converge_one s u tp).1.terrain = s.terrain ∧
      (Timeline.converge_one s u tp).1.grid_size = s.grid_size ∧
      (Timeline.converge_one s u tp).2 = true := by
  have hpu : (p.uid == u) = false := by
    simp only [beq_eq_false_iff_ne, ne_eq, hp]
    exact fun hh => hu hh.symm
  unfold Timeline.converge_one
  dsimp only
  rw [hent, List.filter_cons_of_neg (by simp [hpu])]
  by_cases hins : (rest.filter (fun e => e.uid == u)).isEmpty = true
  · left
    rw [if_pos hins]
  · right
    rw [if_neg hins]
    refine ⟨Timeline.pick_target (rest.filter (fun e => e.uid == u)) tp,
      ?_, ?_, rfl, rfl, rfl⟩
    · exact List.mem_of_mem_filter (pick_target_mem _ _
        (by simpa [List.isEmpty_iff] using hins))
    · dsimp only
      rw [List.filter_cons_of_pos (by simp [hpu])]
      simp

theorem update_last_mem (f : Entity → Entity) :
    ∀ (t : List Entity) (a : Entity), ∀ x ∈ Timeline.update_last (a :: t) f,
      x ∈ a :: t ∨ ∃ b ∈ a :: t, x = f b := by
  intro t
  induction t with
  | nil =>
    intro a x hx
    rcases List.mem_singleton.mp hx with rfl
    exact Or.inr ⟨a, List.mem_cons_self _ _, rfl⟩
  | cons b rs ih =>
    intro a x hx
    rcases List.mem_cons.mp hx with rfl | hx2
    · exact Or.inl (List.mem_cons_self _ _)
    · rcases ih b x hx2 with h | ⟨c, hc, rfl⟩
      · exact Or.inl (List.mem_cons_of_mem _ h)
      · exact Or.inr ⟨c, List.mem_cons_of_mem _ hc, rfl⟩

theorem wf_update_last (l : List Entity) (f : Entity → Entity)
    (hf : ∀ e, (f e).uid = e.uid ∧ (f e).type = e.type ∧
      (f e).holder = e.holder)
    (hwf : wfList l = true) : wfList (Timeline.update_last l f) = true := by
  obtain ⟨p, rest, rfl, h0, h1, h2, h3⟩ := (wfList_iff l).mp hwf
  cases rest with
  | nil =>
    refine (wfList_iff _).mpr ⟨f p, [], rfl, ?_, ?_, ?_, by simp⟩
    · rw [(hf p).1, h0]
    · rw [(hf p).2.1, h1]
    · rw [(hf p).2.2, h2]
  | cons r rs =>
    refine (wfList_iff _).mpr ⟨p, Timeline.update_last (r :: rs) f, rfl,
      h0, h1, h2, ?_⟩
    intro x hx
    rcases update_last_mem f rs r x hx with h | ⟨b, hb, rfl⟩
    · exact h3 x h
    · obtain ⟨hu, ht⟩ := h3 b hb
      exact ⟨by rw [(hf b).1]; exact hu, by rw [(hf b).2.1]; exact ht⟩

theorem wf_update_last2 (p : Entity) (tail : List Entity)
    (f : Entity → Entity)
    (hf : ∀ e, (f e).uid = e.uid ∧ (f e).type = e.type)
    (hwf : wfList (p :: tail) = true) (hne : tail ≠ []) :
    wfList (Timeline.update_last (p :: tail) f) = true := by
  obtain ⟨p2, rest, heq, h0, h1, h2, h3⟩ := (wfList_iff _).mp hwf
  injection heq with hpp hrr
  subst hpp
  subst hrr
  cases tail with
  | nil => exact absurd rfl hne
  | cons r rs =>
    refine (wfList_iff _).mpr ⟨p, Timeline.update_last (r :: rs) f, rfl,
      h0, h1, h2, ?_⟩
    intro x hx
    rcases update_last_mem f rs r x hx with h | ⟨b, hb, rfl⟩
    · exact h3 x h
    · obtain ⟨hu, ht⟩ := h3 b hb
      exact ⟨by rw [(hf b).1]; exact hu, by rw [(hf b).2]; exact ht⟩

theorem trigger_fill_forall2 (st : BranchState) (i : Nat) (pp : Pos) :
    List.Forall₂ coreEq st.entities (Physics.trigger_fill_at st i pp).entities := by
  unfold Physics.trigger_fill_at
  split
  · dsimp only
    exact forall2_set coreEq_refl _ i _ (fun h => ⟨rfl, rfl, rfl⟩)
  · exact forall2_refl coreEq_refl _

theorem trigger_fold_forall2 (pp : Pos) :
    ∀ (idxs : List Nat) (st : BranchState),
      List.Forall₂ coreEq st.entities
        (idxs.foldl (fun st i => Physics.trigger_fill_at st i pp) st).entities := by
  intro idxs
  induction idxs with
  | nil => intro st; exact forall2_refl coreEq_refl _
  | cons i rest ih =>
    intro st
    exact forall2_trans coreEq_trans (trigger_fill_forall2 st i pp) (ih _)

theorem carried_forall2 (np : Pos) :
    ∀ l : List Entity,
      List.Forall₂ coreEq l (GameLogic.carried_loop np l).1 := by
  intro l
  induction l with
  | nil => exact .nil
  | cons e rest ih =>
    unfold GameLogic.carried_loop
    cases hc : e.carrier with
    | none => exact forall2_refl coreEq_refl _
    | some c =>
      dsimp only
      refine .cons ?_ ih
      by_cases h0 : (c == some 0) = true
      · rw [if_pos h0]; exact ⟨rfl, rfl, rfl⟩
      · rw [if_neg h0]; exact ⟨rfl, rfl, rfl⟩

theorem set_player_forall2 (l : List Entity) (g : Entity → Entity)
    (hg : ∀ e, coreEq e (g e)) :
    List.Forall₂ coreEq l (l.set 0 (g (l.headD defaultEntity))) := by
  refine forall2_set coreEq_refl l 0 _ (fun h => ?_)
  cases l with
  | nil => simp at h
  | cons a t => exact hg a

theorem diverge_wf (s : BranchState) (h : wf s = true) :
    wf (Timeline.diverge s) = true := by
  unfold wf at h ⊢
  unfold Timeline.diverge BranchState.copy
  dsimp only
  exact wfList_forall2 h (forall2_map _ (fun a => ⟨rfl, rfl, rfl⟩) _)

theorem step_wf (s : BranchState) (h : wf s = true) :
    wf (Physics.step s).1 = true := by
  unfold wf at h ⊢
  unfold Physics.step
  dsimp only
  exact wfList_forall2 h
    (List.Forall₂.imp settleRel_coreEq (settle_loop_forall2 _ _ _))

theorem execute_move_wf (s : BranchState) (d : Pos) (h : wf s = true) :
    wf (GameLogic.execute_move s d).1 = true := by
  unfold wf at h ⊢
  unfold GameLogic.execute_move
  dsimp only
  apply wfList_forall2 h
  refine forall2_trans coreEq_trans ?_ (carried_forall2 _ _)
  refine forall2_trans coreEq_trans ?_
    (set_player_forall2 _
      (fun e => { e with pos := padd s.player.pos d, direction := d })
      (fun e => ⟨rfl, rfl, rfl⟩))
  refine forall2_trans coreEq_trans ?_ (trigger_fold_forall2 _ _ _)
  show List.Forall₂ coreEq s.entities _
  split
  · exact forall2_refl coreEq_refl _
  · refine forall2_map _ (fun a => ?_) _
    by_cases hc : GameLogic.pushed_pred (padd s.player.pos d) a = true
    · rw [if_pos hc]; exact ⟨rfl, rfl, rfl⟩
    · rw [if_neg hc]; exact ⟨rfl, rfl, rfl⟩

theorem converge_one_wf (s : BranchState) (u : Nat) (tp : Option Pos)
    (hu : u ≠ 0) (h : wf s = true) :
    wf (Timeline.converge_one s u tp).1 = true := by
  obtain ⟨p, rest, hent, h0, h1, h2, h3⟩ := (wfList_iff _).mp h
  rcases converge_one_cases s u tp p rest hent h0 hu with hcase |
    ⟨t2, ht2, hents, hterr, hgs, hflag⟩
  · rw [hcase]; exact h
  · unfold wf
    rw [hents]
    refine (wfList_iff _).mpr ⟨p, _, rfl, h0, h1, h2, ?_⟩
    intro x hx
    rcases List.mem_append.mp hx with hxf | hxt
    · exact h3 x (List.mem_of_mem_filter hxf)
    · rcases List.mem_singleton.mp hxt with rfl
      exact h3 _ ht2

theorem try_pickup_wf (s : BranchState) (h : wf s = true) :
    wf (GameLogic.try_pickup s).1 = true := by
  unfold GameLogic.try_pickup
  dsimp only
  cases hf : s.entities.find? (fun e =>
      e.pos == padd s.player.pos s.player.direction &&
      e.type == EntityType.BOX && e.z == (0 : Int)) with
  | none => exact h
  | some target =>
    dsimp only
    obtain ⟨p, rest, hent, h0, h1, h2, h3⟩ := (wfList_iff _).mp h
    have htmem := List.mem_of_find?_eq_some hf
    have htpred := List.find?_some hf
    simp only [Bool.and_eq_true, beq_iff_eq] at htpred
    have htype : target.type = EntityType.BOX := htpred.1.2
    have hne0 : target.uid ≠ 0 := by
      rw [hent] at htmem
      rcases List.mem_cons.mp htmem with rfl | hm
      · rw [h1] at htype; cases htype
      · exact (h3 target hm).1
    rcases converge_one_cases s target.uid none p rest hent h0 hne0 with
      hcase | ⟨t2, ht2, hents, hterr, hgs, hflag⟩
    · rw [hcase]
      unfold wf
      dsimp only
      apply wf_update_last
      · exact fun e => ⟨rfl, rfl, rfl⟩
      · exact h
    · unfold wf
      dsimp only
      rw [hents]
      apply wf_update_last
      · exact fun e => ⟨rfl, rfl, rfl⟩
      · refine (wfList_iff _).mpr ⟨p, _, rfl, h0, h1, h2, ?_⟩
        intro x hx
        rcases List.mem_append.mp hx with hxf | hxt
        · exact h3 x (List.mem_of_mem_filter hxf)
        · rcases List.mem_singleton.mp hxt with rfl
          exact h3 _ ht2

theorem try_drop_success_forall2 (s : BranchState)
    (h : (GameLogic.try_drop s).2 = some true) :
    List.Forall₂ coreEq s.entities (GameLogic.try_drop s).1.entities := by
  unfold GameLogic.try_drop at h ⊢
  cases hc : GameLogic.collect_held s.entities with
  | none => rw [hc] at h; cases h
  | some held =>
    rw [hc] at h
    dsimp only at h ⊢
    by_cases h1 : held.isEmpty = true
    · rw [if_pos h1] at h; cases h
    · rw [if_neg h1] at h ⊢
      by_cases h2 : (!(decide (0 ≤ (padd s.player.pos s.player.direction).1) &&
          decide ((padd s.player.pos s.player.direction).1 < s.grid_size) &&
          decide (0 ≤ (padd s.player.pos s.player.direction).2) &&
          decide ((padd s.player.pos s.player.direction).2 < s.grid_size)))
          = true
      · rw [if_pos h2] at h; cases h
      · rw [if_neg h2] at h ⊢
        by_cases h3 : (tget s.terrain (padd s.player.pos s.player.direction)
            == some TerrainType.WALL) = true
        · rw [if_pos h3] at h; cases h
        · rw [if_neg h3] at h ⊢
          by_cases h4 : decide (0 < Physics.collision_at
              (padd s.player.pos s.player.direction) s) = true
          · rw [if_pos h4] at h; cases h
          · rw [if_neg h4] at h ⊢
            refine forall2_trans coreEq_trans ?_ (trigger_fold_forall2 _ _ _)
            show List.Forall₂ coreEq s.entities _
            refine forall2_map _ (fun a => ?_) _
            by_cases hca : (a.carrier == some (some 0)) = true
            · rw [if_pos hca]; exact ⟨rfl, rfl, rfl⟩
            · rw [if_neg hca]; exact ⟨rfl, rfl, rfl⟩

theorem try_drop_wf (s : BranchState) (h : wf s = true) :
    wf (GameLogic.try_drop s).1 = true := by
  by_cases hres : (GameLogic.try_drop s).2 = some true
  · exact wfList_forall2 h (try_drop_success_forall2 s hres)
  · rw [try_drop_unchanged s hres]; exact h

theorem settle_go_wf : ∀ (uids : List Nat) (st : BranchState),
    (∀ u ∈ uids, u ≠ 0) → wf st = true →
    wf (Timeline.settle_carried_go uids st).1 = true := by
  intro uids
  induction uids with
  | nil => intro st _ h; exact h
  | cons u rest ih =>
    intro st hall h
    unfold Timeline.settle_carried_go
    dsimp only
    obtain ⟨p, prest, hent, h0, h1, h2, h3⟩ := (wfList_iff _).mp h
    rcases converge_one_cases st u none p prest hent h0
        (hall u (List.mem_cons_self _ _)) with hcase |
      ⟨t2, ht2, hents, hterr, hgs, hflag⟩
    · rw [hcase]
      exact h
    · rw [hflag]
      apply ih _ (fun v hv => hall v (List.mem_cons_of_mem _ hv))
      unfold wf
      dsimp only
      rw [hents]
      apply wf_update_last2
      · exact fun e => ⟨rfl, rfl⟩
      · rw [← hents]
        have hwfc : wf (Timeline.converge_one st u none).1 = true :=
          converge_one_wf st u none (hall u (List.mem_cons_self _ _)) h
        exact hwfc
      · simp

theorem settle_carried_wf (s : BranchState) (h : wf s = true) :
    wf (Timeline.settle_carried s).1 = true := by
  unfold Timeline.settle_carried
  dsimp only
  split
  · exact h
  · apply settle_go_wf _ _ ?_ h
    intro u hu
    have hu2 := uniq_subset _ _ hu
    obtain ⟨p, rest, hent, h0, h1, h2, h3⟩ := (wfList_iff _).mp h
    unfold BranchState.get_held_items at hu2
    obtain ⟨e, he, rfl⟩ := List.mem_map.mp hu2
    have hef := List.mem_filter.mp he
    rw [hent] at hef
    rcases List.mem_cons.mp hef.1 with rfl | hm
    · have : e.holder = some 0 := by simpa using hef.2
      rw [h2] at this
      cases this
    · exact (h3 e hm).1

theorem wf_playerAtZero (s : BranchState) (h : wf s = true) :
    playerAtZero s := by
  obtain ⟨p, rest, hent, h0, h1, h2, h3⟩ := (wfList_iff _).mp h
  refine ⟨p, rest, hent, h1, ?_⟩
  intro e he
  rw [(h3 e he).2]
  intro hcontra
  cases hcontra

theorem converge_wf (main sub : BranchState) (hm : wf main = true)
    (hs : wf sub = true) : wf (Timeline.converge main sub) = true := by
  obtain ⟨pm, rm, hentm, h0m, h1m, h2m, h3m⟩ := (wfList_iff _).mp hm
  obtain ⟨ps, rs, hentsb, h0s, h1s, h2s, h3s⟩ := (wfList_iff _).mp hs
  have hplayer : main.player = pm := by
    unfold BranchState.player
    rw [hentm]
    rfl
  unfold wf Timeline.converge
  dsimp only
  refine (wfList_iff _).mpr ⟨Entity.copyE main.player, _, rfl, ?_, ?_, ?_, ?_⟩
  · show main.player.uid = 0
    rw [hplayer]; exact h0m
  · show main.player.type = EntityType.PLAYER
    rw [hplayer]; exact h1m
  · show main.player.holder = none
    rw [hplayer]; exact h2m
  · intro x hx
    obtain ⟨k, hk, hxeq⟩ := List.mem_map.mp hx
    have hk2 := uniq_subset _ _ hk
    obtain ⟨a0, ha0, hfa0⟩ := List.mem_map.mp hk2
    have ha0grp : a0 ∈ List.filter (fun e => (e.uid, e.pos) == k)
        (List.filter (fun e => !(e.uid == 0)) main.entities ++
          List.filter (fun e => !(e.uid == 0)) sub.entities) :=
      List.mem_filter.mpr ⟨ha0, by simp [hfa0]⟩
    have hb := best_of_mem _ (List.ne_nil_of_mem ha0grp)
    have hbF := List.mem_filter.mp hb
    have hbprops : ∀ b : Entity,
        b ∈ (List.filter (fun e => !(e.uid == 0)) main.entities ++
          List.filter (fun e => !(e.uid == 0)) sub.entities) →
        b.uid ≠ 0 ∧ b.type = EntityType.BOX := by
      intro b hbmem
      rcases List.mem_append.mp hbmem with hside | hside
      · have h2f := List.mem_filter.mp hside
        have hne : b.uid ≠ 0 := by simpa using h2f.2
        refine ⟨hne, ?_⟩
        rw [hentm] at h2f
        rcases List.mem_cons.mp h2f.1 with rfl | hmem
        · exact absurd h0m hne
        · exact (h3m _ hmem).2
      · have h2f := List.mem_filter.mp hside
        have hne : b.uid ≠ 0 := by simpa using h2f.2
        refine ⟨hne, ?_⟩
        rw [hentsb] at h2f
        rcases List.mem_cons.mp h2f.1 with rfl | hmem
        · exact absurd h0s hne
        · exact (h3s _ hmem).2
    have hbp := hbprops _ hbF.1
    rw [← hxeq]
    split <;> constructor <;> split <;>
      first
        | exact hbp.1
        | exact hbp.2

/-! Claim theorems. -/

/-- C1: the claim says a successful `try_pickup` leaves the resolved
box instance Held (layer 1) with holder 0, collision 0, at the player's
cell, and reported by `get_held_items`.  Evaluating the code at a state
with a grounded box in front of the player shows `try_pickup` returns
True yet the box's `holder` is still None and its layer is still Ground
(only the stray dynamic `carrier` attribute was set), so
`get_held_items` reports nothing. -/
theorem c1_code_eval :
    (GameLogic.try_pickup pickupState).2 = true ∧
    ((GameLogic.try_pickup pickupState).1).get_held_items = [] ∧
    ((GameLogic.try_pickup pickupState).1.entities.getD 1 defaultEntity).uid
      = 1 ∧
    ((GameLogic.try_pickup pickupState).1.entities.getD 1 defaultEntity).holder
      = none ∧
    ((GameLogic.try_pickup pickupState).1.entities.getD 1 defaultEntity).z
      = 0 ∧
    ((GameLogic.try_pickup pickupState).1.entities.getD 1 defaultEntity).carrier
      = some (some 0) ∧
    ((GameLogic.try_pickup pickupState).1.entities.getD 1 defaultEntity).collision
      = 0 ∧
    ((GameLogic.try_pickup pickupState).1.entities.getD 1 defaultEntity).pos
      = (2, 2) := by decide

/-- C2: the claim says `execute_move` returns normally and `try_drop`
returns a boolean without raising.  Evaluating the code at a
well-formed state shows both raise `AttributeError` (they read the
dynamic `carrier` attribute, which the player entity never has), the
raised flag being `true` for `execute_move` and the `none` result for
`try_drop`. -/
theorem c2_code_eval :
    wf pickupState = true ∧
    (GameLogic.execute_move pickupState (0, 1)).2 = true ∧
    (GameLogic.try_drop pickupState).2 = none := by decide

/-- C3: the fourth bundled scenario (focused holds nothing, sub holds
box 2, normal merge) claims box 2 ends up Ground at the sub player's
cell (2,3).  Evaluating `converge` followed by `settle_carried` on the
exact inputs of `test_case_4_focus_empty_sub_b2_normal_merge` shows the
merged player instead ends up holding box 2 at the focused player's
cell (2,2), so the bundled test's assertions fail on this code. -/
theorem c3_code_eval :
    mergeNormal.get_held_items = [2] ∧
    mergeNormal.entities.filter (fun e => e.uid == 2) =
      [{ uid := 2, type := EntityType.BOX, pos := (2, 2), collision := 0,
         weight := 1, z := 1, holder := some 0, direction := (0, 1),
         carrier := none }] ∧
    mergeNormal.player.pos = (2, 2) := by decide

/-- C4 counterexample: a live sub-branch whose merge preview has weight
on every switch and the player on the goal, yet `check_victory` returns
false — victory is not observable while branched, contrary to the
claim. -/
theorem c4_counterexample :
    branchedSession.has_branched = true ∧
    (GameController.get_merge_preview branchedSession).all_switches_activated
      = true ∧
    tget (GameController.get_merge_preview branchedSession).terrain
      (GameController.get_merge_preview branchedSession).player.pos
      = some TerrainType.GOAL ∧
    (GameController.check_victory branchedSession).2 = false := by decide

/-- C4 amended: while a sub-branch is live `check_victory` returns
false unconditionally; when unbranched it returns true exactly when
every switch carries weight and the player stands on the goal
(evaluated on the main branch, which is the merge preview when
unbranched). -/
theorem c4_amended (c : GameController) :
    (c.has_branched = true → (GameController.check_victory c).2 = false) ∧
    (c.has_branched = false →
      (GameController.check_victory c).2 =
        (c.main_branch.all_switches_activated &&
         (tget c.main_branch.terrain c.main_branch.player.pos ==
           some TerrainType.GOAL))) := by
  constructor
  · intro h
    simp [GameController.check_victory, h]
  · intro h
    simp [GameController.check_victory, GameController.get_merge_preview, h]

/-- C4 amended, witnessed at the winning state both branched (false)
and unbranched (true). -/
theorem c4_amended_witness :
    (GameController.check_victory branchedSession).2 = false ∧
    (GameController.check_victory unbranchedSession).2 = true :=
  ⟨(c4_amended branchedSession).1 (by decide),
   by rw [(c4_amended unbranchedSession).2 (by decide)]; decide⟩

/-- C6 counterexample: for a player standing on an unfilled hole with
no box present, `collision_at` at the player's cell is 0 (the hole's
base −1 plus the player's own collision volume 1), not −1 as the claim
states. -/
theorem c6_counterexample :
    tget holeState.terrain holeState.player.pos = some TerrainType.HOLE ∧
    holeState.is_hole_filled holeState.player.pos = false ∧
    Physics.collision_at holeState.player.pos holeState = 0 ∧
    ¬ Physics.collision_at holeState.player.pos holeState = -1 := by decide

/-- C5: diverge/converge round trip.  For every well-formed branch B
with no shadow ids, `converge (diverge B) B` with the copy focused
yields a branch equal to B in its terrain map, grid size, player
identity and position, and in every entity position: a uid sits at a
position in the round-trip result exactly when it does in B. -/
theorem c5_round_trip (B : BranchState) (p : Entity) (rest : List Entity)
    (hent : B.entities = p :: rest) (hp : p.uid = 0)
    (hrest : ∀ e ∈ rest, e.uid ≠ 0)
    (hshadow : B.entities.all (fun e => !(B.is_shadow e.uid)) = true) :
    (Timeline.converge (Timeline.diverge B) B).terrain = B.terrain ∧
    (Timeline.converge (Timeline.diverge B) B).grid_size = B.grid_size ∧
    (Timeline.converge (Timeline.diverge B) B).player.uid = B.player.uid ∧
    (Timeline.converge (Timeline.diverge B) B).player.pos = B.player.pos ∧
    ∀ u q, (∃ e ∈ (Timeline.converge (Timeline.diverge B) B).entities,
        e.uid = u ∧ e.pos = q) ↔
      (∃ e ∈ B.entities, e.uid = u ∧ e.pos = q) := by
  have hheld : (Timeline.diverge B).get_held_items = B.get_held_items :=
    held_copy B
  obtain ⟨ents, terr, gs⟩ := B
  dsimp only at hent
  subst hent
  refine ⟨rfl, rfl, rfl, rfl, ?_⟩
  intro u q
  constructor
  · rintro ⟨e, he, hu, hq⟩
    rcases converge_mem_self _ _ hheld e he with rfl | ⟨a, hma, hu0, hue, hpe⟩
    · exact ⟨p, List.mem_cons_self _ _, hu, hq⟩
    · rcases hma with hm | hs
      · obtain ⟨a0, ha0, rfl⟩ := List.mem_map.mp hm
        rw [hue] at hu
        rw [hpe] at hq
        exact ⟨a0, ha0, hu, hq⟩
      · rw [hue] at hu
        rw [hpe] at hq
        exact ⟨a, hs, hu, hq⟩
  · rintro ⟨a, ha, hu, hq⟩
    rcases List.mem_cons.mp ha with rfl | hr2
    · exact ⟨_, List.mem_cons_self _ _, hu, hq⟩
    · obtain ⟨e, he, hue, hpe⟩ := converge_mem_self_rev _ _ hheld a
        (List.mem_cons_of_mem _ hr2) (hrest a hr2)
      exact ⟨e, he, hue.trans hu, hpe.trans hq⟩

/-- C5 witnessed on a branch with a player and two boxes. -/
theorem c5_round_trip_witness :
    (Timeline.converge (Timeline.diverge roundTripState)
        roundTripState).terrain = roundTripState.terrain ∧
    (Timeline.converge (Timeline.diverge roundTripState)
        roundTripState).player.pos = roundTripState.player.pos ∧
    ((∃ e ∈ (Timeline.converge (Timeline.diverge roundTripState)
        roundTripState).entities, e.uid = 1 ∧ e.pos = ((1 : Int), (1 : Int)))
      ↔ (∃ e ∈ roundTripState.entities,
          e.uid = 1 ∧ e.pos = ((1 : Int), (1 : Int)))) :=
  have h := c5_round_trip roundTripState (mkPlayer (2, 2))
    [mkBox 1 (1, 1), mkBox 2 (0, 3)] rfl rfl (by decide) (by decide)
  ⟨h.1, h.2.2.2.1, h.2.2.2.2 1 (1, 1)⟩

/-- C6 amended: for every branch whose player stands on an unfilled
Hole cell with no box (indeed no other entity) present at that cell,
`collision_at` at the player's cell equals 0 — the hole base −1 plus
the player's own collision volume 1, which the sum includes — which is
less than the player's collision volume, and the settle pass returns
Fall. -/
theorem c6_amended (s : BranchState) (p : Entity) (rest : List Entity)
    (hent : s.entities = p :: rest)
    (htype : p.type = EntityType.PLAYER)
    (hz : p.z = 0) (hcol : p.collision = 1)
    (hterr : tget s.terrain p.pos = some TerrainType.HOLE)
    (hrest : ∀ e ∈ rest, e.pos ≠ p.pos) :
    Physics.collision_at s.player.pos s = 0 ∧
    Physics.collision_at s.player.pos s < s.player.collision ∧
    (Physics.step s).2 = PhysicsResult.FALL := by
  obtain ⟨ents, terr, gs⟩ := s
  dsimp only at hent hterr ⊢
  subst hent
  have hca := collision_at_hole_self (p :: rest) terr gs p rest rfl hz hcol
    hterr hrest
  refine ⟨hca, ?_, ?_⟩
  · show Physics.collision_at p.pos _ < p.collision
    rw [hca, hcol]
    exact one_pos
  · unfold Physics.step
    dsimp only
    have hf2 := settle_loop_forall2 terr ((p :: rest).length + 1) (p :: rest)
    revert hf2
    generalize Physics.settle_loop terr ((p :: rest).length + 1) (p :: rest)
      = lres
    intro hf2
    cases hf2 with
    | cons hpp' htail =>
      rename_i p' rest'
      have hp' : p' = p := settleRel_player p p' hpp' htype
      subst p'
      have hrest' : ∀ e ∈ rest', e.pos ≠ p.pos := by
        intro e he
        obtain ⟨a, ha, hr⟩ := forall2_mem_right htail e he
        rw [settleRel_pos a e hr]
        exact hrest a ha
      have hca' := collision_at_hole_self (p :: rest') terr gs p rest' rfl hz
        hcol hterr hrest'
      have hcf : Physics.check_fall
          { entities := p :: rest', terrain := terr, grid_size := gs }
          = true := by
        unfold Physics.check_fall
        show decide (Physics.collision_at p.pos _ < p.collision) = true
        rw [hca', hcol]
        decide
      rw [hcf]
      rfl

/-- C6 amended, witnessed at the one-player-on-a-hole state. -/
theorem c6_amended_witness :
    Physics.collision_at holeState.player.pos holeState = 0 ∧
    Physics.collision_at holeState.player.pos holeState
      < holeState.player.collision ∧
    (Physics.step holeState).2 = PhysicsResult.FALL :=
  c6_amended holeState (mkPlayer (1, 1)) [] rfl rfl rfl rfl (by decide)
    (by intro e he; cases he)

/-- C7 counterexample: with the player standing on a no-carry cell and
a grounded box in front, `effective_capacity` is 0 yet `try_pickup`
succeeds — the pickup rule never consults the capacity. -/
theorem c7_counterexample :
    Physics.effective_capacity noCarryState (some noCarryState.player.pos)
      = 0 ∧
    tget noCarryState.terrain noCarryState.player.pos
      = some TerrainType.NO_CARRY ∧
    (GameLogic.try_pickup noCarryState).2 = true := by decide

/-- C7 amended: `effective_capacity` is 0 exactly on NoCarry terrain
and 1 otherwise, and what it governs is the interaction hint: with
empty hands on a NoCarry cell the pickup hint is suppressed
(`try_pickup` itself does not consult the capacity and can succeed
there, as the counterexample shows). -/
theorem c7_amended (s : BranchState) (q : Pos) (c : GameController) :
    (Physics.effective_capacity s (some q) = 0 ↔
      tget s.terrain q = some TerrainType.NO_CARRY) ∧
    (Physics.effective_capacity s (some q) = 0 ∨
      Physics.effective_capacity s (some q) = 1) ∧
    ((GameController.get_active_branch c).get_held_items = [] →
      tget (GameController.get_active_branch c).terrain
        (GameController.get_active_branch c).player.pos =
        some TerrainType.NO_CARRY →
      GameController.get_interaction_hint c =
        { text := "", color := (0, 0, 0), target := none,
          is_drop := false }) := by
  refine ⟨?_, ?_, ?_⟩
  · unfold Physics.effective_capacity
    cases h : tget s.terrain q with
    | none => simp [h]
    | some t => cases t <;> simp [h]
  · unfold Physics.effective_capacity
    cases h : tget s.terrain q with
    | none => simp [h]
    | some t => cases t <;> simp [h]
  · intro h1 h2
    unfold GameController.get_interaction_hint
    simp [h1, Physics.effective_capacity, h2]

/-- C7 amended, witnessed on the no-carry session. -/
theorem c7_amended_witness :
    (Physics.effective_capacity noCarryState (some (2, 2)) = 0 ↔
      tget noCarryState.terrain (2, 2) = some TerrainType.NO_CARRY) ∧
    (GameController.get_active_branch noCarrySession).get_held_items = [] ∧
    GameController.get_interaction_hint noCarrySession =
      { text := "", color := (0, 0, 0), target := none, is_drop := false } :=
  ⟨(c7_amended noCarryState (2, 2) noCarrySession).1, by decide,
   (c7_amended noCarryState (2, 2) noCarrySession).2.2 (by decide)
     (by decide)⟩

/-- C8: player-at-index-0 invariant.  Branch well-formedness (exactly
one player entity, at index 0 with uid 0, holding nothing itself, all
other entities boxes with positive uids) implies the claimed
exactly-one-player-at-index-0 property and is preserved by every
operation: execute_move, try_pickup, try_drop, diverge, converge,
converge_one on a box uid, settle_carried and the physics step. -/
theorem c8_invariant (s s2 : BranchState) (d : Pos) (u : Nat)
    (tp : Option Pos) :
    (wf s = true → playerAtZero s) ∧
    (wf s = true → wf (GameLogic.execute_move s d).1 = true) ∧
    (wf s = true → wf (GameLogic.try_pickup s).1 = true) ∧
    (wf s = true → wf (GameLogic.try_drop s).1 = true) ∧
    (wf s = true → wf (Timeline.diverge s) = true) ∧
    (wf s = true → wf s2 = true → wf (Timeline.converge s s2) = true) ∧
    (wf s = true → u ≠ 0 → wf (Timeline.converge_one s u tp).1 = true) ∧
    (wf s = true → wf (Timeline.settle_carried s).1 = true) ∧
    (wf s = true → wf (Physics.step s).1 = true) :=
  ⟨wf_playerAtZero s,
   execute_move_wf s d,
   try_pickup_wf s,
   try_drop_wf s,
   diverge_wf s,
   converge_wf s s2,
   fun h hu => converge_one_wf s u tp hu h,
   settle_carried_wf s,
   step_wf s⟩

/-- C8 witnessed at a concrete well-formed pair of branches. -/
theorem c8_invariant_witness :
    wf pickupState = true ∧
    playerAtZero pickupState ∧
    wf (GameLogic.execute_move pickupState (0, 1)).1 = true ∧
    wf (GameLogic.try_pickup pickupState).1 = true ∧
    wf (GameLogic.try_drop pickupState).1 = true ∧
    wf (Timeline.diverge pickupState) = true ∧
    wf (Timeline.converge pickupState mergeSub) = true ∧
    wf (Timeline.converge_one pickupState 1 none).1 = true ∧
    wf (Timeline.settle_carried pickupState).1 = true ∧
    wf (Physics.step pickupState).1 = true :=
  ⟨by decide,
   (c8_invariant pickupState mergeSub (0, 1) 1 none).1 (by decide),
   (c8_invariant pickupState mergeSub (0, 1) 1 none).2.1 (by decide),
   (c8_invariant pickupState mergeSub (0, 1) 1 none).2.2.1 (by decide),
   (c8_invariant pickupState mergeSub (0, 1) 1 none).2.2.2.1 (by decide),
   (c8_invariant pickupState mergeSub (0, 1) 1 none).2.2.2.2.1 (by decide),
   (c8_invariant pickupState mergeSub (0, 1) 1 none).2.2.2.2.2.1 (by decide)
     (by decide),
   (c8_invariant pickupState mergeSub (0, 1) 1 none).2.2.2.2.2.2.1
     (by decide) (by decide),
   (c8_invariant pickupState mergeSub (0, 1) 1 none).2.2.2.2.2.2.2.1
     (by decide),
   (c8_invariant pickupState mergeSub (0, 1) 1 none).2.2.2.2.2.2.2.2
     (by decide)⟩

/-- C9 counterexample: a move toward an out-of-bounds cell in open
terrain is rejected (`handle_move` returns False) yet the player's
facing has changed from (0,1) to (0,−1) — the rejection does not leave
the player's facing unchanged as the claim states. -/
theorem c9_counterexample :
    (GameController.handle_move openSession (0, -1)).2 = some false ∧
    (GameController.get_active_branch openSession).player.direction
      = (0, 1) ∧
    (GameController.get_active_branch
        (GameController.handle_move openSession (0, -1)).1).player.direction
      = (0, -1) := by decide

/-- C9 amended: every rejected boundary operation leaves entities,
terrain and player position unchanged, with two deviations forced by
the code: a rejected move in open terrain may still have updated the
player's facing (all components other than facings are unchanged, which
also covers the out-of-bounds and shadow-push rejections), and a
rejected drop leaves the branch unchanged but raises instead of
returning a result (the `carrier` slip), so its guarantee is stated as
"any non-successful outcome leaves the branch untouched".  Branching
off a branch point and merging with no active branch leave the whole
session unchanged. -/
theorem c9_amended (c : GameController) (d : Pos) (s : BranchState)
    (hwf : c.current_focus = 0 ∨ c.sub_branch.isSome = true) :
    ((GameController.handle_move c d).2 = some false →
      strip_dirs (GameController.handle_move c d).1 = strip_dirs c) ∧
    ((GameController.try_branch c).2 = false →
      (GameController.try_branch c).1 = c) ∧
    ((GameController.try_merge c).2 = false →
      (GameController.try_merge c).1 = c) ∧
    (¬ (GameLogic.try_drop s).2 = some true →
      (GameLogic.try_drop s).1 = s) :=
  ⟨fun h => handle_move_reject c d hwf h,
   fun h => try_branch_reject c h,
   fun h => try_merge_reject c h,
   fun h => try_drop_unchanged s h⟩

/-- C9 amended, witnessed: a rejected out-of-bounds move leaves
everything but the facing unchanged; a branch attempt off a branch
point and a merge attempt with no live branch leave the session
unchanged; a drop attempt that does not succeed leaves the branch
unchanged. -/
theorem c9_amended_witness :
    (openSession.current_focus = 0 ∨ openSession.sub_branch.isSome = true) ∧
    (GameController.handle_move openSession (0, -1)).2 = some false ∧
    strip_dirs (GameController.handle_move openSession (0, -1)).1
      = strip_dirs openSession ∧
    (GameController.try_branch openSession).1 = openSession ∧
    (GameController.try_merge openSession).1 = openSession ∧
    (GameLogic.try_drop pickupState).1 = pickupState :=
  ⟨Or.inl rfl, by decide,
   (c9_amended openSession (0, -1) pickupState (Or.inl rfl)).1 (by decide),
   (c9_amended openSession (0, -1) pickupState (Or.inl rfl)).2.1 (by decide),
   (c9_amended openSession (0, -1) pickupState (Or.inl rfl)).2.2.1
     (by decide),
   (c9_amended openSession (0, -1) pickupState (Or.inl rfl)).2.2.2
     (by decide)⟩

/-- C10: after every successful undo the collapsed and victory flags
are both cleared, whatever their prior values (history snapshots never
record them). -/
theorem c10_undo (c : GameController)
    (h : (GameController.undo c).2 = true) :
    (GameController.undo c).1.collapsed = false ∧
    (GameController.undo c).1.victory = false := by
  unfold GameController.undo at h ⊢
  by_cases hl : c.history.length ≤ 1
  · simp [hl] at h
  · simp [hl]

/-- C10 witnessed on a session with an undoable action and both
terminal flags latched. -/
theorem c10_undo_witness :
    (GameController.undo undoSession).2 = true ∧
    (GameController.undo undoSession).1.collapsed = false ∧
    (GameController.undo undoSession).1.victory = false :=
  ⟨by decide, c10_undo undoSession (by decide)⟩

end DIV
